import Mathlib

/-!
Shallow embedding of the security-group rule manager from
`packages/@aws-cdk/aws-ec2/lib/security-group.ts`, together with the
import/export plumbing of `ImportedSecurityGroup` and the SNS
`Topic`/`ImportedTopic` pair.

The TypeScript classes mutate two arrays (`directIngressRules`,
`directEgressRules`) and the construct-child collection (used by the
`SecurityGroupBase` fallback paths that emit standalone
`CfnSecurityGroupIngress`/`CfnSecurityGroupEgress` resources).  Here the
whole mutable state is an explicit `SecurityGroupState` record and each
method is a state-passing function.  A method that can `throw` returns the
state at the moment of the throw together with a `CallResult.error`
carrying the message (TypeScript mutations performed before a `throw`
persist, which matters for `addEgressRule`); a method that cannot throw
returns `CallResult.ok`.

Optional (possibly `undefined`) rule fields become `Option` values, so the
JavaScript `===` comparisons of `ingressRulesEqual`/`egressRulesEqual`
become equality of `Option` values.  The `groupId` field of the standalone
rule resources is the same deferred token for every rule of one group and
plays no role in any compared behaviour, so it is not recorded.
-/

/-- Fields of a `CfnSecurityGroup.IngressProperty` as used by
`ingressRulesEqual` and the rule builders.  `description` is always set by
the code paths modelled here, hence a plain `String`. -/
structure IngressRule where
  cidrIp : Option String
  cidrIpv6 : Option String
  fromPort : Option Int
  toPort : Option Int
  ipProtocol : Option String
  sourceSecurityGroupId : Option String
  sourceSecurityGroupName : Option String
  sourceSecurityGroupOwnerId : Option String
  description : String
  deriving DecidableEq, Repr

/-- Fields of a `CfnSecurityGroup.EgressProperty` as used by
`egressRulesEqual` and the rule builders. -/
structure EgressRule where
  cidrIp : Option String
  cidrIpv6 : Option String
  fromPort : Option Int
  toPort : Option Int
  ipProtocol : Option String
  destinationPrefixListId : Option String
  destinationSecurityGroupId : Option String
  description : String
  deriving DecidableEq, Repr

/-- `ingressRulesEqual`: compare two ingress rules the way CloudFormation
would, discarding the description. -/
def ingressRulesEqual (a b : IngressRule) : Bool :=
  a.cidrIp == b.cidrIp
    && a.cidrIpv6 == b.cidrIpv6
    && a.fromPort == b.fromPort
    && a.toPort == b.toPort
    && a.ipProtocol == b.ipProtocol
    && a.sourceSecurityGroupId == b.sourceSecurityGroupId
    && a.sourceSecurityGroupName == b.sourceSecurityGroupName
    && a.sourceSecurityGroupOwnerId == b.sourceSecurityGroupOwnerId

/-- `egressRulesEqual`: compare two egress rules the way CloudFormation
would, discarding the description. -/
def egressRulesEqual (a b : EgressRule) : Bool :=
  a.cidrIp == b.cidrIp
    && a.cidrIpv6 == b.cidrIpv6
    && a.fromPort == b.fromPort
    && a.toPort == b.toPort
    && a.ipProtocol == b.ipProtocol
    && a.destinationPrefixListId == b.destinationPrefixListId
    && a.destinationSecurityGroupId == b.destinationSecurityGroupId

/-- `MATCH_NO_TRAFFIC`: the bogus egress rule that purposely matches no
traffic, used to disable the "all traffic" default of security groups. -/
def MATCH_NO_TRAFFIC : EgressRule :=
  { cidrIp := some "255.255.255.255/32"
    cidrIpv6 := none
    fromPort := some 252
    toPort := some 86
    ipProtocol := some "icmp"
    destinationPrefixListId := none
    destinationSecurityGroupId := none
    description := "Disallow all traffic" }

/-- `ALLOW_ALL_RULE`: the egress rule that matches all traffic. -/
def ALLOW_ALL_RULE : EgressRule :=
  { cidrIp := some "0.0.0.0/0"
    cidrIpv6 := none
    fromPort := none
    toPort := none
    ipProtocol := some "-1"
    destinationPrefixListId := none
    destinationSecurityGroupId := none
    description := "Allow all outbound traffic by default" }

/-- `isAllTrafficRule`: whether a rule refers to all traffic. -/
def isAllTrafficRule (rule : EgressRule) : Bool :=
  rule.cidrIp == some "0.0.0.0/0" && rule.ipProtocol == some "-1"

/-- Result of `peer.toIngressRuleJSON()`: the structural fragment a peer
contributes to an ingress rule (a CIDR literal or a reference to another
security group). -/
structure IngressRuleJson where
  cidrIp : Option String
  cidrIpv6 : Option String
  sourceSecurityGroupId : Option String
  sourceSecurityGroupName : Option String
  sourceSecurityGroupOwnerId : Option String
  deriving DecidableEq, Repr

/-- Result of `peer.toEgressRuleJSON()`: the structural fragment a peer
contributes to an egress rule. -/
structure EgressRuleJson where
  cidrIp : Option String
  cidrIpv6 : Option String
  destinationPrefixListId : Option String
  destinationSecurityGroupId : Option String
  deriving DecidableEq, Repr

/-- Result of `connection.toRuleJSON()`: the protocol and port fields a
port range contributes to a rule. -/
structure PortRuleJson where
  ipProtocol : Option String
  fromPort : Option Int
  toPort : Option Int
  deriving DecidableEq, Repr

/-- An `ISecurityGroupRule` peer: the `canInlineRule` capability flag, the
`uniqueId` identity string, and the two structural projections.  The
object-spread `...peer.toIngressRuleJSON()` of the source becomes reading
these record fields (the peer and port-range fragments touch disjoint rule
fields). -/
structure Peer where
  canInlineRule : Bool
  uniqueId : String
  toIngressRuleJson : IngressRuleJson
  toEgressRuleJson : EgressRuleJson
  deriving DecidableEq, Repr

/-- An `IPortRange` connection: its capability flag, its string rendering
(used in default descriptions and child ids), and its rule projection. -/
structure PortRange where
  canInlineRule : Bool
  toStr : String
  toRuleJson : PortRuleJson
  deriving DecidableEq, Repr

/-- Builds `{ ...peer.toIngressRuleJSON(), ...connection.toRuleJSON(),
description }`. -/
def buildIngressRule (p : Peer) (c : PortRange) (d : String) : IngressRule :=
  { cidrIp := p.toIngressRuleJson.cidrIp
    cidrIpv6 := p.toIngressRuleJson.cidrIpv6
    fromPort := c.toRuleJson.fromPort
    toPort := c.toRuleJson.toPort
    ipProtocol := c.toRuleJson.ipProtocol
    sourceSecurityGroupId := p.toIngressRuleJson.sourceSecurityGroupId
    sourceSecurityGroupName := p.toIngressRuleJson.sourceSecurityGroupName
    sourceSecurityGroupOwnerId := p.toIngressRuleJson.sourceSecurityGroupOwnerId
    description := d }

/-- Builds `{ ...peer.toEgressRuleJSON(), ...connection.toRuleJSON(),
description }`. -/
def buildEgressRule (p : Peer) (c : PortRange) (d : String) : EgressRule :=
  { cidrIp := p.toEgressRuleJson.cidrIp
    cidrIpv6 := p.toEgressRuleJson.cidrIpv6
    fromPort := c.toRuleJson.fromPort
    toPort := c.toRuleJson.toPort
    ipProtocol := c.toRuleJson.ipProtocol
    destinationPrefixListId := p.toEgressRuleJson.destinationPrefixListId
    destinationSecurityGroupId := p.toEgressRuleJson.destinationSecurityGroupId
    description := d }

/-- Payload of a standalone child construct created by the
`SecurityGroupBase` fallback paths: a `CfnSecurityGroupIngress` or a
`CfnSecurityGroupEgress` resource. -/
inductive ChildRule where
  | ingress : IngressRule → ChildRule
  | egress : EgressRule → ChildRule
  deriving DecidableEq, Repr

/-- Whether a standalone child is an egress rule resource. -/
def ChildRule.isEgress : ChildRule → Bool
  | .ingress _ => false
  | .egress _ => true

/-- A child construct of the security group: its construct id (the key
`tryFindChild` deduplicates on) and its rule payload. -/
structure Child where
  id : String
  rule : ChildRule
  deriving DecidableEq, Repr

/-- The mutable state of one `SecurityGroup` construct. -/
structure SecurityGroupState where
  allowAllOutbound : Bool
  directIngressRules : List IngressRule
  directEgressRules : List EgressRule
  children : List Child
  deriving DecidableEq, Repr

/-- Result channel of a method call: JavaScript `throw` becomes
`CallResult.error` with the thrown message. -/
inductive CallResult where
  | ok : CallResult
  | error : String → CallResult
  deriving DecidableEq, Repr

/-- JavaScript `str.replace(a, b)` on single characters replaces only the
first occurrence; this is the list-of-characters worker. -/
def replaceFirstAux : List Char → Char → Char → List Char
  | [], _, _ => []
  | c :: cs, a, b => if c = a then b :: cs else c :: replaceFirstAux cs a b

/-- JavaScript `str.replace(a, b)` for single characters: replace the
first occurrence of `a` by `b`. -/
def replaceFirst (s : String) (a b : Char) : String :=
  ⟨replaceFirstAux s.data a b⟩

/-- `this.tryFindChild(id) !== undefined`. -/
def hasChild (s : SecurityGroupState) (id : String) : Bool :=
  s.children.any (fun ch => ch.id == id)

/-- `SecurityGroupBase.addIngressRule`: derive the child id and default
description from the peer and connection, then create a standalone
`CfnSecurityGroupIngress` child unless a child with that id exists. -/
def baseAddIngressRule (s : SecurityGroupState) (p : Peer) (c : PortRange)
    (descr : Option String) : SecurityGroupState :=
  let id0 := "from " ++ p.uniqueId ++ ":" ++ c.toStr
  let d := descr.getD id0
  let id := replaceFirst id0 '/' '_'
  if hasChild s id then s
  else { s with children := s.children ++ [⟨id, ChildRule.ingress (buildIngressRule p c d)⟩] }

/-- `SecurityGroupBase.addEgressRule`: the egress twin of
`baseAddIngressRule`, with ids of the form `to ...`. -/
def baseAddEgressRule (s : SecurityGroupState) (p : Peer) (c : PortRange)
    (descr : Option String) : SecurityGroupState :=
  let id0 := "to " ++ p.uniqueId ++ ":" ++ c.toStr
  let d := descr.getD id0
  let id := replaceFirst id0 '/' '_'
  if hasChild s id then s
  else { s with children := s.children ++ [⟨id, ChildRule.egress (buildEgressRule p c d)⟩] }

/-- `SecurityGroup.hasIngressRule`: whether an equal (modulo description)
ingress rule already exists. -/
def SecurityGroupState.hasIngressRule (s : SecurityGroupState) (rule : IngressRule) : Bool :=
  s.directIngressRules.any (fun r => ingressRulesEqual r rule)

/-- `SecurityGroup.addDirectIngressRule`: push the rule unless a duplicate
exists. -/
def addDirectIngressRule (s : SecurityGroupState) (rule : IngressRule) : SecurityGroupState :=
  if s.hasIngressRule rule then s
  else { s with directIngressRules := s.directIngressRules ++ [rule] }

/-- `SecurityGroup.hasEgressRule`. -/
def SecurityGroupState.hasEgressRule (s : SecurityGroupState) (rule : EgressRule) : Bool :=
  s.directEgressRules.any (fun r => egressRulesEqual r rule)

/-- `SecurityGroup.addDirectEgressRule`. -/
def addDirectEgressRule (s : SecurityGroupState) (rule : EgressRule) : SecurityGroupState :=
  if s.hasEgressRule rule then s
  else { s with directEgressRules := s.directEgressRules ++ [rule] }

/-- `findIndex` plus `splice(i, 1)`: drop the first element equal (modulo
description) to the target, keep the list unchanged when none is. -/
def removeFirstEgressEqual : List EgressRule → EgressRule → List EgressRule
  | [], _ => []
  | r :: rs, t => if egressRulesEqual r t then rs else r :: removeFirstEgressEqual rs t

/-- `SecurityGroup.removeNoTrafficRule`: remove the bogus rule if it
exists. -/
def removeNoTrafficRule (s : SecurityGroupState) : SecurityGroupState :=
  { s with directEgressRules := removeFirstEgressEqual s.directEgressRules MATCH_NO_TRAFFIC }

/-- The message of the single `throw` in `SecurityGroup.addEgressRule`. -/
def allTrafficErrorMsg : String :=
  "Cannot add an \"all traffic\" egress rule in this way; set allowAllOutbound=true on the SecurityGroup instead."

/-- `SecurityGroup.addIngressRule`: fall back to the standalone resource
when the peer or connection cannot be inlined, otherwise build the rule
(defaulting the description) and add it with deduplication.  Never
throws. -/
def addIngressRule (s : SecurityGroupState) (p : Peer) (c : PortRange)
    (descr : Option String) : SecurityGroupState × CallResult :=
  if !p.canInlineRule || !c.canInlineRule then
    (baseAddIngressRule s p c descr, CallResult.ok)
  else
    let d := descr.getD ("from " ++ p.uniqueId ++ ":" ++ c.toStr)
    (addDirectIngressRule s (buildIngressRule p c d), CallResult.ok)

/-- `SecurityGroup.addEgressRule`: a no-op in allow-all-outbound mode;
otherwise first remove the no-traffic sentinel, then either fall back to a
standalone resource, or build the inline rule, throw on an all-traffic
rule, and add with deduplication.  The state component of the result is
the state at return or at the throw (the sentinel removal precedes the
throw, as in the source). -/
def addEgressRule (s : SecurityGroupState) (p : Peer) (c : PortRange)
    (descr : Option String) : SecurityGroupState × CallResult :=
  if s.allowAllOutbound then
    (s, CallResult.ok)
  else
    let s1 := removeNoTrafficRule s
    if !p.canInlineRule || !c.canInlineRule then
      (baseAddEgressRule s1 p c descr, CallResult.ok)
    else
      let d := descr.getD ("from " ++ p.uniqueId ++ ":" ++ c.toStr)
      let rule := buildEgressRule p c d
      if isAllTrafficRule rule then (s1, CallResult.error allTrafficErrorMsg)
      else (addDirectEgressRule s1 rule, CallResult.ok)

/-- `SecurityGroup.addDefaultEgressRule`: push `ALLOW_ALL_RULE` or
`MATCH_NO_TRAFFIC` depending on the mode. -/
def addDefaultEgressRule (s : SecurityGroupState) : SecurityGroupState :=
  if s.allowAllOutbound then
    { s with directEgressRules := s.directEgressRules ++ [ALLOW_ALL_RULE] }
  else
    { s with directEgressRules := s.directEgressRules ++ [MATCH_NO_TRAFFIC] }

/-- `this.allowAllOutbound = props.allowAllOutbound !== false` (the prop
defaults to `true`). -/
def resolveAllowAllOutbound : Option Bool → Bool
  | some false => false
  | _ => true

/-- The `SecurityGroup` constructor as far as the rule state is concerned:
empty rule lists, then `addDefaultEgressRule`. -/
def mkSecurityGroup (allowAllOutbound : Bool) : SecurityGroupState :=
  addDefaultEgressRule
    { allowAllOutbound := allowAllOutbound
      directIngressRules := []
      directEgressRules := []
      children := [] }

/-- One call against the public rule-adding interface. -/
structure Call where
  isIngress : Bool
  peer : Peer
  conn : PortRange
  descr : Option String
  deriving DecidableEq, Repr

/-- Dispatch one call. -/
def step (s : SecurityGroupState) (call : Call) : SecurityGroupState × CallResult :=
  if call.isIngress then addIngressRule s call.peer call.conn call.descr
  else addEgressRule s call.peer call.conn call.descr

/-- Run a sequence of calls, stopping at the first thrown error (a throw
aborts the synthesis pass); the state at the throw is returned. -/
def runCalls (s : SecurityGroupState) : List Call → SecurityGroupState × CallResult
  | [] => (s, CallResult.ok)
  | call :: rest =>
    match step s call with
    | (s1, CallResult.ok) => runCalls s1 rest
    | (s1, CallResult.error e) => (s1, CallResult.error e)

/-- `SecurityGroupImportProps`. -/
structure SecurityGroupImportProps where
  securityGroupId : String
  deriving DecidableEq, Repr

/-- `ImportedSecurityGroup`: keeps the import props and exposes the
imported id. -/
structure ImportedSecurityGroup where
  props : SecurityGroupImportProps
  securityGroupId : String
  deriving DecidableEq, Repr

/-- `SecurityGroup.import` (named `importGroup` here because `import` is a
Lean keyword): construct an `ImportedSecurityGroup` from the props. -/
def SecurityGroup.importGroup (props : SecurityGroupImportProps) : ImportedSecurityGroup :=
  { props := props, securityGroupId := props.securityGroupId }

/-- `ImportedSecurityGroup.export` (named `exportProps` here because
`export` is a Lean keyword): returns the stored props. -/
def ImportedSecurityGroup.exportProps (g : ImportedSecurityGroup) : SecurityGroupImportProps :=
  g.props

/-- Modelled from the spec: `TopicImportProps` is declared in
`topic-ref.ts`, which is not part of the corpus.  Per the spec, an
imported entity "can be represented purely by its external identifier";
the fields are the two identifiers that `Topic.export` produces and
`ImportedTopic` consumes in the corpus (`topicArn`, `topicName`). -/
structure TopicImportProps where
  topicArn : String
  topicName : String
  deriving DecidableEq, Repr

/-- `ImportedTopic`: keeps the import props, exposes the identifiers, and
does not auto-create a policy. -/
structure ImportedTopic where
  props : TopicImportProps
  topicArn : String
  topicName : String
  autoCreatePolicy : Bool
  deriving DecidableEq, Repr

/-- `Topic.import` (named `importTopic` here because `import` is a Lean
keyword). -/
def Topic.importTopic (props : TopicImportProps) : ImportedTopic :=
  { props := props
    topicArn := props.topicArn
    topicName := props.topicName
    autoCreatePolicy := false }

/-- `ImportedTopic.export` (named `exportProps` here because `export` is a
Lean keyword). -/
def ImportedTopic.exportProps (t : ImportedTopic) : TopicImportProps :=
  t.props

/-- Test fixture: an inline-capable CIDR peer (models `CidrIPv4`/`AnyIPv4`
from `security-group-rule.ts`, outside the corpus; only its projections
matter here). -/
def cidrPeer (cidr : String) : Peer :=
  { canInlineRule := true
    uniqueId := cidr
    toIngressRuleJson := { cidrIp := some cidr, cidrIpv6 := none,
                           sourceSecurityGroupId := none, sourceSecurityGroupName := none,
                           sourceSecurityGroupOwnerId := none }
    toEgressRuleJson := { cidrIp := some cidr, cidrIpv6 := none,
                          destinationPrefixListId := none, destinationSecurityGroupId := none } }

/-- Test fixture: a peer that cannot be inlined (every `SecurityGroupBase`
peer has `canInlineRule = false`). -/
def sgPeer (sgId : String) : Peer :=
  { canInlineRule := false
    uniqueId := sgId
    toIngressRuleJson := { cidrIp := none, cidrIpv6 := none,
                           sourceSecurityGroupId := some sgId, sourceSecurityGroupName := none,
                           sourceSecurityGroupOwnerId := none }
    toEgressRuleJson := { cidrIp := none, cidrIpv6 := none,
                          destinationPrefixListId := none, destinationSecurityGroupId := some sgId } }

/-- Test fixture: tcp port 80. -/
def tcp80 : PortRange :=
  { canInlineRule := true
    toStr := "80"
    toRuleJson := { ipProtocol := some "tcp", fromPort := some 80, toPort := some 80 } }

/-- Test fixture: the all-traffic port range (protocol `-1`). -/
def allTrafficRange : PortRange :=
  { canInlineRule := true
    toStr := "ALL TRAFFIC"
    toRuleJson := { ipProtocol := some "-1", fromPort := none, toPort := none } }

/-- Test fixture: the icmp 252/86 range of the no-traffic sentinel. -/
def bogusIcmpRange : PortRange :=
  { canInlineRule := true
    toStr := "ICMP 252-86"
    toRuleJson := { ipProtocol := some "icmp", fromPort := some 252, toPort := some 86 } }

/-! ### Small frame lemmas about the individual operations -/

theorem baseAddIngressRule_directIngressRules (s : SecurityGroupState) (p : Peer)
    (c : PortRange) (d : Option String) :
    (baseAddIngressRule s p c d).directIngressRules = s.directIngressRules := by
  simp only [baseAddIngressRule]
  split <;> rfl

theorem baseAddIngressRule_directEgressRules (s : SecurityGroupState) (p : Peer)
    (c : PortRange) (d : Option String) :
    (baseAddIngressRule s p c d).directEgressRules = s.directEgressRules := by
  simp only [baseAddIngressRule]
  split <;> rfl

theorem baseAddIngressRule_allowAllOutbound (s : SecurityGroupState) (p : Peer)
    (c : PortRange) (d : Option String) :
    (baseAddIngressRule s p c d).allowAllOutbound = s.allowAllOutbound := by
  simp only [baseAddIngressRule]
  split <;> rfl

theorem baseAddEgressRule_directIngressRules (s : SecurityGroupState) (p : Peer)
    (c : PortRange) (d : Option String) :
    (baseAddEgressRule s p c d).directIngressRules = s.directIngressRules := by
  simp only [baseAddEgressRule]
  split <;> rfl

theorem baseAddEgressRule_directEgressRules (s : SecurityGroupState) (p : Peer)
    (c : PortRange) (d : Option String) :
    (baseAddEgressRule s p c d).directEgressRules = s.directEgressRules := by
  simp only [baseAddEgressRule]
  split <;> rfl

theorem baseAddEgressRule_allowAllOutbound (s : SecurityGroupState) (p : Peer)
    (c : PortRange) (d : Option String) :
    (baseAddEgressRule s p c d).allowAllOutbound = s.allowAllOutbound := by
  simp only [baseAddEgressRule]
  split <;> rfl

theorem addDirectIngressRule_directEgressRules (s : SecurityGroupState) (rule : IngressRule) :
    (addDirectIngressRule s rule).directEgressRules = s.directEgressRules := by
  simp only [addDirectIngressRule]
  split <;> rfl

theorem addDirectIngressRule_allowAllOutbound (s : SecurityGroupState) (rule : IngressRule) :
    (addDirectIngressRule s rule).allowAllOutbound = s.allowAllOutbound := by
  simp only [addDirectIngressRule]
  split <;> rfl

theorem addDirectEgressRule_directIngressRules (s : SecurityGroupState) (rule : EgressRule) :
    (addDirectEgressRule s rule).directIngressRules = s.directIngressRules := by
  simp only [addDirectEgressRule]
  split <;> rfl

theorem addDirectEgressRule_allowAllOutbound (s : SecurityGroupState) (rule : EgressRule) :
    (addDirectEgressRule s rule).allowAllOutbound = s.allowAllOutbound := by
  simp only [addDirectEgressRule]
  split <;> rfl

theorem removeNoTrafficRule_directIngressRules (s : SecurityGroupState) :
    (removeNoTrafficRule s).directIngressRules = s.directIngressRules := rfl

theorem removeNoTrafficRule_allowAllOutbound (s : SecurityGroupState) :
    (removeNoTrafficRule s).allowAllOutbound = s.allowAllOutbound := rfl

theorem removeNoTrafficRule_children (s : SecurityGroupState) :
    (removeNoTrafficRule s).children = s.children := rfl

theorem addIngressRule_snd (s : SecurityGroupState) (p : Peer) (c : PortRange)
    (d : Option String) : (addIngressRule s p c d).2 = CallResult.ok := by
  simp only [addIngressRule]
  split <;> rfl

theorem addIngressRule_fst_directEgressRules (s : SecurityGroupState) (p : Peer)
    (c : PortRange) (d : Option String) :
    (addIngressRule s p c d).1.directEgressRules = s.directEgressRules := by
  simp only [addIngressRule]
  split
  · exact baseAddIngressRule_directEgressRules s p c d
  · exact addDirectIngressRule_directEgressRules s _

theorem addIngressRule_fst_allowAllOutbound (s : SecurityGroupState) (p : Peer)
    (c : PortRange) (d : Option String) :
    (addIngressRule s p c d).1.allowAllOutbound = s.allowAllOutbound := by
  simp only [addIngressRule]
  split
  · exact baseAddIngressRule_allowAllOutbound s p c d
  · exact addDirectIngressRule_allowAllOutbound s _

theorem addEgressRule_allowAll (s : SecurityGroupState) (p : Peer) (c : PortRange)
    (d : Option String) (hA : s.allowAllOutbound = true) :
    addEgressRule s p c d = (s, CallResult.ok) := by
  simp [addEgressRule, hA]

theorem addEgressRule_fst_directIngressRules (s : SecurityGroupState) (p : Peer)
    (c : PortRange) (d : Option String) :
    (addEgressRule s p c d).1.directIngressRules = s.directIngressRules := by
  simp only [addEgressRule]
  split
  · rfl
  · split
    · exact (baseAddEgressRule_directIngressRules _ p c d).trans
        (removeNoTrafficRule_directIngressRules s)
    · split
      · exact removeNoTrafficRule_directIngressRules s
      · exact (addDirectEgressRule_directIngressRules _ _).trans
          (removeNoTrafficRule_directIngressRules s)

theorem addEgressRule_fst_allowAllOutbound (s : SecurityGroupState) (p : Peer)
    (c : PortRange) (d : Option String) :
    (addEgressRule s p c d).1.allowAllOutbound = s.allowAllOutbound := by
  simp only [addEgressRule]
  split
  · rfl
  · split
    · exact (baseAddEgressRule_allowAllOutbound _ p c d).trans
        (removeNoTrafficRule_allowAllOutbound s)
    · split
      · exact removeNoTrafficRule_allowAllOutbound s
      · exact (addDirectEgressRule_allowAllOutbound _ _).trans
          (removeNoTrafficRule_allowAllOutbound s)

theorem step_fst_allowAllOutbound (s : SecurityGroupState) (call : Call) :
    (step s call).1.allowAllOutbound = s.allowAllOutbound := by
  simp only [step]
  split
  · exact addIngressRule_fst_allowAllOutbound s _ _ _
  · exact addEgressRule_fst_allowAllOutbound s _ _ _

theorem egressRulesEqual_refl (r : EgressRule) : egressRulesEqual r r = true := by
  simp [egressRulesEqual]

theorem ingressRulesEqual_refl (r : IngressRule) : ingressRulesEqual r r = true := by
  simp [ingressRulesEqual]

/-! ### Claim theorems -/

/-- C1 counterexample: on a fresh deny-by-default group, adding an inline
all-traffic egress rule does throw, but it does not leave the egress list
as it was: the `MATCH_NO_TRAFFIC` sentinel has already been removed by the
time of the throw, so the list is changed and the sentinel is gone. -/
theorem addEgress_allTraffic_mutates_counterexample :
    (addEgressRule (mkSecurityGroup false) (cidrPeer "0.0.0.0/0") allTrafficRange none).2
        = CallResult.error allTrafficErrorMsg ∧
      (addEgressRule (mkSecurityGroup false) (cidrPeer "0.0.0.0/0") allTrafficRange none).1.directEgressRules
        ≠ (mkSecurityGroup false).directEgressRules ∧
      MATCH_NO_TRAFFIC ∉
        (addEgressRule (mkSecurityGroup false) (cidrPeer "0.0.0.0/0") allTrafficRange none).1.directEgressRules := by
  decide

/-- C1 amended: on a not-allow-all-outbound group, an inline all-traffic
egress rule throws the configuration error, and the resulting state is the
prior state with the first `MATCH_NO_TRAFFIC`-equal egress entry removed
(the sentinel removal happens before the throw), not the prior state
itself. -/
theorem addEgress_allTraffic_error_state (s : SecurityGroupState) (p : Peer)
    (c : PortRange) (d : Option String)
    (hA : s.allowAllOutbound = false)
    (hp : p.canInlineRule = true) (hc : c.canInlineRule = true)
    (hcidr : p.toEgressRuleJson.cidrIp = some "0.0.0.0/0")
    (hproto : c.toRuleJson.ipProtocol = some "-1") :
    (addEgressRule s p c d).2 = CallResult.error allTrafficErrorMsg ∧
      (addEgressRule s p c d).1 = removeNoTrafficRule s := by
  simp [addEgressRule, hA, hp, hc, isAllTrafficRule, buildEgressRule, hcidr, hproto]

/-- C1 witness: the amended statement evaluated on a fresh deny-by-default
group and a concrete all-traffic peer/range. -/
theorem addEgress_allTraffic_error_state_witness :
    (addEgressRule (mkSecurityGroup false) (cidrPeer "0.0.0.0/0") allTrafficRange none).2
        = CallResult.error allTrafficErrorMsg ∧
      (addEgressRule (mkSecurityGroup false) (cidrPeer "0.0.0.0/0") allTrafficRange none).1
        = removeNoTrafficRule (mkSecurityGroup false) :=
  addEgress_allTraffic_error_state (mkSecurityGroup false) (cidrPeer "0.0.0.0/0")
    allTrafficRange none (by decide) (by decide) (by decide) (by decide) (by decide)

/-- C2: `addEgressRule` throws the configuration error exactly when the
group is not in allow-all-outbound mode, the peer and connection are both
inline-capable, and the candidate rule has the all-traffic shape (cidrIp
`0.0.0.0/0`, ipProtocol `-1`); every other call returns normally. -/
theorem addEgressRule_error_iff (s : SecurityGroupState) (p : Peer) (c : PortRange)
    (d : Option String) :
    ((addEgressRule s p c d).2 = CallResult.error allTrafficErrorMsg ↔
        (s.allowAllOutbound = false ∧ p.canInlineRule = true ∧ c.canInlineRule = true ∧
          p.toEgressRuleJson.cidrIp = some "0.0.0.0/0" ∧
          c.toRuleJson.ipProtocol = some "-1")) ∧
      ((addEgressRule s p c d).2 = CallResult.ok ↔
        ¬(s.allowAllOutbound = false ∧ p.canInlineRule = true ∧ c.canInlineRule = true ∧
          p.toEgressRuleJson.cidrIp = some "0.0.0.0/0" ∧
          c.toRuleJson.ipProtocol = some "-1")) := by
  cases hA : s.allowAllOutbound <;>
    cases hp : p.canInlineRule <;>
      cases hc : c.canInlineRule <;>
        by_cases h1 : p.toEgressRuleJson.cidrIp = some "0.0.0.0/0" <;>
          by_cases h2 : c.toRuleJson.ipProtocol = some "-1" <;>
            simp [addEgressRule, hA, hp, hc, isAllTrafficRule, buildEgressRule, h1, h2]

/-- C3 counterexample: on a fresh deny-by-default group, the first
successful `addEgressRule` call with a peer that cannot be inlined leaves
the (inline) egress rule list empty: the sentinel is removed but the new
rule becomes a standalone resource, so the list does not contain the rule
built from the call. -/
theorem first_egress_noninline_counterexample :
    (addEgressRule (mkSecurityGroup false) (sgPeer "sg-123") tcp80 none).2 = CallResult.ok ∧
      (addEgressRule (mkSecurityGroup false) (sgPeer "sg-123") tcp80 none).1.directEgressRules = [] := by
  decide

/-- C3 amended: a fresh deny-by-default group has egress list
`[MATCH_NO_TRAFFIC]`, and after the first successful `addEgressRule` call
whose peer and connection are inline-capable, the egress list is exactly
the one rule built from that call (so the sentinel is gone whenever the
built rule is not itself the sentinel shape). -/
theorem first_egress_inline_state (p : Peer) (c : PortRange) (d : Option String)
    (hp : p.canInlineRule = true) (hc : c.canInlineRule = true)
    (hok : (addEgressRule (mkSecurityGroup false) p c d).2 = CallResult.ok) :
    (mkSecurityGroup false).directEgressRules = [MATCH_NO_TRAFFIC] ∧
      (addEgressRule (mkSecurityGroup false) p c d).1.directEgressRules
        = [buildEgressRule p c (d.getD ("from " ++ p.uniqueId ++ ":" ++ c.toStr))] := by
  refine ⟨rfl, ?_⟩
  by_cases hall :
      isAllTrafficRule (buildEgressRule p c (d.getD ("from " ++ p.uniqueId ++ ":" ++ c.toStr))) = true
  · exfalso
    revert hok
    simp [addEgressRule, hp, hc, hall, mkSecurityGroup, addDefaultEgressRule]
  · have hall' :
        isAllTrafficRule (buildEgressRule p c (d.getD ("from " ++ p.uniqueId ++ ":" ++ c.toStr))) = false :=
      Bool.eq_false_iff.mpr hall
    simp [addEgressRule, hp, hc, hall', mkSecurityGroup, addDefaultEgressRule,
      removeNoTrafficRule, removeFirstEgressEqual, addDirectEgressRule,
      SecurityGroupState.hasEgressRule, egressRulesEqual_refl]

/-- C3 witness: the amended statement evaluated on a concrete inline CIDR
peer and tcp port 80. -/
theorem first_egress_inline_state_witness :
    (mkSecurityGroup false).directEgressRules = [MATCH_NO_TRAFFIC] ∧
      (addEgressRule (mkSecurityGroup false) (cidrPeer "10.0.0.0/8") tcp80 none).1.directEgressRules
        = [buildEgressRule (cidrPeer "10.0.0.0/8") tcp80
            ((none : Option String).getD ("from " ++ (cidrPeer "10.0.0.0/8").uniqueId ++ ":" ++ tcp80.toStr))] :=
  first_egress_inline_state (cidrPeer "10.0.0.0/8") tcp80 none (by decide) (by decide) (by decide)

/-- C8: `addIngressRule` is total and never throws: every call returns
`CallResult.ok`, on every state and for every peer, port range and
optional description. -/
theorem addIngressRule_total (s : SecurityGroupState) (p : Peer) (c : PortRange)
    (d : Option String) : (addIngressRule s p c d).2 = CallResult.ok :=
  addIngressRule_snd s p c d

/-- C9: frame property: `addIngressRule` never changes the egress rule
list, and `addEgressRule` never changes the ingress rule list (also on the
throwing path, whose state at the throw is the returned state). -/
theorem frame_ingress_egress (s : SecurityGroupState) (p : Peer) (c : PortRange)
    (d : Option String) (p' : Peer) (c' : PortRange) (d' : Option String) :
    (addIngressRule s p c d).1.directEgressRules = s.directEgressRules ∧
      (addEgressRule s p' c' d').1.directIngressRules = s.directIngressRules :=
  ⟨addIngressRule_fst_directEgressRules s p c d,
    addEgressRule_fst_directIngressRules s p' c' d'⟩

/-- C10: exporting an imported entity is the identity on its import
props: `SecurityGroup.import(...).export()` returns the given
`SecurityGroupImportProps`, and `Topic.import(...).export()` returns the
given `TopicImportProps`. -/
theorem import_export_roundtrip :
    (∀ p : SecurityGroupImportProps, (SecurityGroup.importGroup p).exportProps = p) ∧
      ∀ q : TopicImportProps, (Topic.importTopic q).exportProps = q :=
  ⟨fun _ => rfl, fun _ => rfl⟩

/-! ### Sequences of calls in allow-all-outbound mode -/

theorem runCalls_allowAll_egressOnly (calls : List Call) :
    ∀ s : SecurityGroupState, s.allowAllOutbound = true →
      (∀ call ∈ calls, call.isIngress = false) →
      runCalls s calls = (s, CallResult.ok) := by
  induction calls with
  | nil => intro s _ _; rfl
  | cons call rest ih =>
    intro s hA hE
    have hcall : call.isIngress = false := hE call (List.mem_cons_self call rest)
    have hstep : step s call = (s, CallResult.ok) := by
      simp [step, hcall, addEgressRule_allowAll s _ _ _ hA]
    rw [runCalls, hstep]
    exact ih s hA fun c hc => hE c (List.mem_cons_of_mem _ hc)

/-- C4: in allow-all-outbound mode every `addEgressRule` call is a no-op
on the state, so after any finite sequence of such calls the state is the
freshly constructed one and the egress list is exactly `[ALLOW_ALL_RULE]`. -/
theorem allowAll_egress_noop (calls : List Call)
    (hE : ∀ call ∈ calls, call.isIngress = false) :
    (runCalls (mkSecurityGroup true) calls).1 = mkSecurityGroup true ∧
      (runCalls (mkSecurityGroup true) calls).2 = CallResult.ok ∧
      (runCalls (mkSecurityGroup true) calls).1.directEgressRules = [ALLOW_ALL_RULE] := by
  have h := runCalls_allowAll_egressOnly calls (mkSecurityGroup true) rfl hE
  refine ⟨by rw [h], by rw [h], by rw [h]; rfl⟩

/-- C4 witness: the no-op statement evaluated on one concrete egress
call. -/
theorem allowAll_egress_noop_witness :
    (runCalls (mkSecurityGroup true) [⟨false, cidrPeer "10.0.0.0/8", tcp80, none⟩]).1
        = mkSecurityGroup true ∧
      (runCalls (mkSecurityGroup true) [⟨false, cidrPeer "10.0.0.0/8", tcp80, none⟩]).2
        = CallResult.ok ∧
      (runCalls (mkSecurityGroup true) [⟨false, cidrPeer "10.0.0.0/8", tcp80, none⟩]).1.directEgressRules
        = [ALLOW_ALL_RULE] :=
  allowAll_egress_noop [⟨false, cidrPeer "10.0.0.0/8", tcp80, none⟩] (by decide)

/-! ### Idempotence of addIngressRule -/

theorem ingressRulesEqual_build_right (r : IngressRule) (p : Peer) (c : PortRange)
    (d d' : String) :
    ingressRulesEqual r (buildIngressRule p c d) = ingressRulesEqual r (buildIngressRule p c d') := rfl

theorem ingressRulesEqual_build_build (p : Peer) (c : PortRange) (d d' : String) :
    ingressRulesEqual (buildIngressRule p c d) (buildIngressRule p c d') = true := by
  simp [ingressRulesEqual, buildIngressRule]

/-- C7 counterexample: a security group that already holds a matching rule
(added with description "old") keeps that first description: calling
`addIngressRule` twice more with descriptions "ssh" and "other-desc"
leaves exactly one matching rule, but its description is "old", not the
one from the first of the two calls. -/
theorem addIngress_desc_retention_counterexample :
    (addIngressRule
        (addIngressRule
          (addIngressRule (mkSecurityGroup true) (cidrPeer "10.0.0.0/8") tcp80 (some "old")).1
          (cidrPeer "10.0.0.0/8") tcp80 (some "ssh")).1
        (cidrPeer "10.0.0.0/8") tcp80 (some "other-desc")).1.directIngressRules
        = [buildIngressRule (cidrPeer "10.0.0.0/8") tcp80 "old"] ∧
      (buildIngressRule (cidrPeer "10.0.0.0/8") tcp80 "old").description ≠ "ssh" := by
  decide

/-- C7 amended: for an inline-capable peer and connection, and provided no
rule equal (ignoring description) to the candidate is already in the
ingress list, calling `addIngressRule` twice with equal peer and port
range and any two descriptions leaves exactly one matching rule, carrying
the description of the first call. -/
theorem addIngress_idempotent (s : SecurityGroupState) (p : Peer) (c : PortRange)
    (d1 d2 : Option String)
    (hp : p.canInlineRule = true) (hc : c.canInlineRule = true)
    (hnew : ∀ r ∈ s.directIngressRules, ingressRulesEqual r (buildIngressRule p c "") = false) :
    ((addIngressRule (addIngressRule s p c d1).1 p c d2).1.directIngressRules.filter
        fun r => ingressRulesEqual r (buildIngressRule p c ""))
      = [buildIngressRule p c (d1.getD ("from " ++ p.uniqueId ++ ":" ++ c.toStr))] := by
  have hmem1 : s.hasIngressRule (buildIngressRule p c (d1.getD ("from " ++ p.uniqueId ++ ":" ++ c.toStr))) = false := by
    simp only [SecurityGroupState.hasIngressRule, List.any_eq_false]
    intro r hr
    rw [ingressRulesEqual_build_right r p c _ ""]
    simp [hnew r hr]
  have step1 : (addIngressRule s p c d1).1
      = { s with directIngressRules :=
            s.directIngressRules ++ [buildIngressRule p c (d1.getD ("from " ++ p.uniqueId ++ ":" ++ c.toStr))] } := by
    simp [addIngressRule, hp, hc, addDirectIngressRule, hmem1]
  have hmem2 : SecurityGroupState.hasIngressRule
      { s with directIngressRules :=
          s.directIngressRules ++ [buildIngressRule p c (d1.getD ("from " ++ p.uniqueId ++ ":" ++ c.toStr))] }
      (buildIngressRule p c (d2.getD ("from " ++ p.uniqueId ++ ":" ++ c.toStr))) = true := by
    simp only [SecurityGroupState.hasIngressRule, List.any_append, List.any_cons, List.any_nil]
    have : ingressRulesEqual
        (buildIngressRule p c (d1.getD ("from " ++ p.uniqueId ++ ":" ++ c.toStr)))
        (buildIngressRule p c (d2.getD ("from " ++ p.uniqueId ++ ":" ++ c.toStr))) = true :=
      ingressRulesEqual_build_build p c _ _
    simp [this]
  have step2 : (addIngressRule
      { s with directIngressRules :=
          s.directIngressRules ++ [buildIngressRule p c (d1.getD ("from " ++ p.uniqueId ++ ":" ++ c.toStr))] }
      p c d2).1
      = { s with directIngressRules :=
          s.directIngressRules ++ [buildIngressRule p c (d1.getD ("from " ++ p.uniqueId ++ ":" ++ c.toStr))] } := by
    simp [addIngressRule, hp, hc, addDirectIngressRule, hmem2]
  rw [step1, step2]
  show (List.filter _ (_ ++ _)) = _
  rw [List.filter_append]
  have hfilter : s.directIngressRules.filter
      (fun r => ingressRulesEqual r (buildIngressRule p c "")) = [] := by
    rw [List.filter_eq_nil_iff]
    intro r hr
    simp [hnew r hr]
  rw [hfilter]
  have hone : ingressRulesEqual
      (buildIngressRule p c (d1.getD ("from " ++ p.uniqueId ++ ":" ++ c.toStr)))
      (buildIngressRule p c "") = true :=
    ingressRulesEqual_build_build p c _ _
  simp [hone]

/-- C7 witness: the amended statement evaluated on a fresh group with a
concrete peer, port range and two differing descriptions. -/
theorem addIngress_idempotent_witness :
    ((addIngressRule (addIngressRule (mkSecurityGroup true) (cidrPeer "10.1.0.0/16") tcp80 (some "ssh")).1
        (cidrPeer "10.1.0.0/16") tcp80 (some "other-desc")).1.directIngressRules.filter
        fun r => ingressRulesEqual r (buildIngressRule (cidrPeer "10.1.0.0/16") tcp80 ""))
      = [buildIngressRule (cidrPeer "10.1.0.0/16") tcp80
          ((some "ssh").getD ("from " ++ (cidrPeer "10.1.0.0/16").uniqueId ++ ":" ++ tcp80.toStr))] :=
  addIngress_idempotent (mkSecurityGroup true) (cidrPeer "10.1.0.0/16") tcp80
    (some "ssh") (some "other-desc") (by decide) (by decide) (by decide)

/-! ### The egress sentinel across call sequences -/

/-- A call is sentinel-avoiding when, if it is an inline-capable egress
call, its candidate rule is not equal (ignoring description) to
`MATCH_NO_TRAFFIC`. -/
def notSentinelCall (call : Call) : Bool :=
  call.isIngress || !call.peer.canInlineRule || !call.conn.canInlineRule ||
    !(egressRulesEqual (buildEgressRule call.peer call.conn "") MATCH_NO_TRAFFIC)

theorem notSentinelCall_elim (call : Call) (h : notSentinelCall call = true)
    (h1 : call.isIngress = false) (h2 : call.peer.canInlineRule = true)
    (h3 : call.conn.canInlineRule = true) :
    egressRulesEqual (buildEgressRule call.peer call.conn "") MATCH_NO_TRAFFIC = false := by
  simp [notSentinelCall, h1, h2, h3] at h
  exact h

theorem egressRulesEqual_build_left (p : Peer) (c : PortRange) (d d' : String) (t : EgressRule) :
    egressRulesEqual (buildEgressRule p c d) t = egressRulesEqual (buildEgressRule p c d') t := rfl

theorem mem_removeFirstEgressEqual : ∀ (l : List EgressRule) (t r : EgressRule),
    r ∈ removeFirstEgressEqual l t → r ∈ l := by
  intro l
  induction l with
  | nil => intro t r h; simp [removeFirstEgressEqual] at h
  | cons a as ih =>
    intro t r h
    by_cases ha : egressRulesEqual a t = true
    · simp only [removeFirstEgressEqual] at h
      rw [if_pos ha] at h
      exact List.mem_cons_of_mem a h
    · simp only [removeFirstEgressEqual] at h
      rw [if_neg ha] at h
      rcases List.mem_cons.mp h with h1 | h2
      · exact h1 ▸ List.mem_cons_self a as
      · exact List.mem_cons_of_mem a (ih t r h2)

theorem runCalls_cons_ok (s : SecurityGroupState) (call : Call) (rest : List Call)
    (s1 : SecurityGroupState) (h : step s call = (s1, CallResult.ok)) :
    runCalls s (call :: rest) = runCalls s1 rest := by
  rw [runCalls, h]

theorem runCalls_cons_error (s : SecurityGroupState) (call : Call) (rest : List Call)
    (s1 : SecurityGroupState) (e : String) (h : step s call = (s1, CallResult.error e)) :
    runCalls s (call :: rest) = (s1, CallResult.error e) := by
  rw [runCalls, h]

/-- One deny-mode `addEgressRule` call keeps the egress list free of
sentinel-equal entries, provided the list with its first sentinel-equal
entry dropped is free of them and the candidate is not sentinel-equal. -/
theorem addEgress_sentinelFree (s : SecurityGroupState) (p : Peer) (c : PortRange)
    (d : Option String) (hA : s.allowAllOutbound = false)
    (h1 : ∀ r ∈ removeFirstEgressEqual s.directEgressRules MATCH_NO_TRAFFIC,
        egressRulesEqual r MATCH_NO_TRAFFIC = false)
    (hns : p.canInlineRule = true → c.canInlineRule = true →
        egressRulesEqual (buildEgressRule p c "") MATCH_NO_TRAFFIC = false) :
    ∀ r ∈ (addEgressRule s p c d).1.directEgressRules,
      egressRulesEqual r MATCH_NO_TRAFFIC = false := by
  intro r hr
  by_cases hp : p.canInlineRule = true
  · by_cases hc : c.canInlineRule = true
    · by_cases hall : isAllTrafficRule
          (buildEgressRule p c (d.getD ("from " ++ p.uniqueId ++ ":" ++ c.toStr))) = true
      · have hstate : (addEgressRule s p c d).1.directEgressRules
            = removeFirstEgressEqual s.directEgressRules MATCH_NO_TRAFFIC := by
          simp [addEgressRule, hA, hp, hc, hall, removeNoTrafficRule]
        rw [hstate] at hr
        exact h1 r hr
      · have hall' : isAllTrafficRule
            (buildEgressRule p c (d.getD ("from " ++ p.uniqueId ++ ":" ++ c.toStr))) = false :=
          Bool.eq_false_iff.mpr hall
        have hstate : (addEgressRule s p c d).1
            = addDirectEgressRule (removeNoTrafficRule s)
                (buildEgressRule p c (d.getD ("from " ++ p.uniqueId ++ ":" ++ c.toStr))) := by
          simp [addEgressRule, hA, hp, hc, hall']
        rw [hstate] at hr
        by_cases hhas : (removeNoTrafficRule s).hasEgressRule
            (buildEgressRule p c (d.getD ("from " ++ p.uniqueId ++ ":" ++ c.toStr))) = true
        · simp only [addDirectEgressRule] at hr
          rw [if_pos hhas] at hr
          exact h1 r hr
        · simp only [addDirectEgressRule] at hr
          rw [if_neg hhas] at hr
          rcases List.mem_append.mp hr with hl | hrr
          · exact h1 r hl
          · have hreq : r = buildEgressRule p c (d.getD ("from " ++ p.uniqueId ++ ":" ++ c.toStr)) := by
              simpa using hrr
            rw [hreq, egressRulesEqual_build_left p c _ ""]
            exact hns hp hc
    · have hc' : c.canInlineRule = false := Bool.eq_false_iff.mpr hc
      have hstate : (addEgressRule s p c d).1.directEgressRules
          = removeFirstEgressEqual s.directEgressRules MATCH_NO_TRAFFIC := by
        simp [addEgressRule, hA, hc', baseAddEgressRule_directEgressRules, removeNoTrafficRule]
      rw [hstate] at hr
      exact h1 r hr
  · have hp' : p.canInlineRule = false := Bool.eq_false_iff.mpr hp
    have hstate : (addEgressRule s p c d).1.directEgressRules
        = removeFirstEgressEqual s.directEgressRules MATCH_NO_TRAFFIC := by
      simp [addEgressRule, hA, hp', baseAddEgressRule_directEgressRules, removeNoTrafficRule]
    rw [hstate] at hr
    exact h1 r hr

/-- Successful, sentinel-avoiding call sequences keep a deny-mode egress
list free of sentinel-equal entries. -/
theorem runCalls_sentinelFree (calls : List Call) : ∀ s : SecurityGroupState,
    s.allowAllOutbound = false →
    (runCalls s calls).2 = CallResult.ok →
    (∀ call ∈ calls, notSentinelCall call = true) →
    (∀ r ∈ s.directEgressRules, egressRulesEqual r MATCH_NO_TRAFFIC = false) →
    ∀ r ∈ (runCalls s calls).1.directEgressRules,
      egressRulesEqual r MATCH_NO_TRAFFIC = false := by
  induction calls with
  | nil => intro s _ _ _ h; exact h
  | cons call rest ih =>
    intro s hA hok hns h
    rcases hstep : step s call with ⟨s1, res⟩
    have hA1 : s1.allowAllOutbound = false := by
      have hfl := step_fst_allowAllOutbound s call
      rw [hstep] at hfl
      simpa [hA] using hfl
    cases res with
    | error e =>
      rw [runCalls_cons_error s call rest s1 e hstep] at hok
      exact absurd hok (by simp)
    | ok =>
      rw [runCalls_cons_ok s call rest s1 hstep] at hok ⊢
      have h1 : ∀ r ∈ s1.directEgressRules, egressRulesEqual r MATCH_NO_TRAFFIC = false := by
        cases hc : call.isIngress with
        | false =>
          have hstep' : addEgressRule s call.peer call.conn call.descr = (s1, CallResult.ok) := by
            rw [← hstep]; simp [step, hc]
          have happ := addEgress_sentinelFree s call.peer call.conn call.descr hA
            (fun r hr => h r (mem_removeFirstEgressEqual s.directEgressRules MATCH_NO_TRAFFIC r hr))
            (fun hp hcc => notSentinelCall_elim call (hns call (List.mem_cons_self call rest)) hc hp hcc)
          rw [hstep'] at happ
          exact happ
        | true =>
          have hfr := addIngressRule_fst_directEgressRules s call.peer call.conn call.descr
          have hstep' : addIngressRule s call.peer call.conn call.descr = (s1, CallResult.ok) := by
            rw [← hstep]; simp [step, hc]
          rw [hstep'] at hfr
          intro r hr
          exact h r (by rw [← hfr]; exact hr)
      exact ih s1 hA1 hok (fun c hcm => hns c (List.mem_cons_of_mem _ hcm)) h1

theorem runCalls_allowAll_directEgressRules (calls : List Call) : ∀ s : SecurityGroupState,
    s.allowAllOutbound = true →
    (runCalls s calls).1.directEgressRules = s.directEgressRules := by
  induction calls with
  | nil => intro s _; rfl
  | cons call rest ih =>
    intro s hA
    rcases hstep : step s call with ⟨s1, res⟩
    have hA1 : s1.allowAllOutbound = true := by
      have hfl := step_fst_allowAllOutbound s call
      rw [hstep] at hfl
      simpa [hA] using hfl
    have hegr : s1.directEgressRules = s.directEgressRules := by
      cases hc : call.isIngress with
      | false =>
        have h2 : step s call = (s, CallResult.ok) := by
          simp [step, hc, addEgressRule_allowAll s _ _ _ hA]
        rw [hstep] at h2
        rw [(Prod.mk.injEq _ _ _ _).mp h2 |>.1]
      | true =>
        have h2 := addIngressRule_fst_directEgressRules s call.peer call.conn call.descr
        have hstep' : addIngressRule s call.peer call.conn call.descr = (s1, res) := by
          rw [← hstep]; simp [step, hc]
        rw [hstep'] at h2
        exact h2
    cases res with
    | ok =>
      rw [runCalls_cons_ok s call rest s1 hstep]
      rw [ih s1 hA1, hegr]
    | error e =>
      rw [runCalls_cons_error s call rest s1 e hstep]
      exact hegr

theorem runCalls_ingressOnly_directEgressRules (calls : List Call) : ∀ s : SecurityGroupState,
    (∀ call ∈ calls, call.isIngress = true) →
    (runCalls s calls).1.directEgressRules = s.directEgressRules := by
  induction calls with
  | nil => intro s _; rfl
  | cons call rest ih =>
    intro s hI
    have hc : call.isIngress = true := hI call (List.mem_cons_self call rest)
    rcases hstep : step s call with ⟨s1, res⟩
    have hstep' : addIngressRule s call.peer call.conn call.descr = (s1, res) := by
      rw [← hstep]; simp [step, hc]
    have hres : res = CallResult.ok := by
      have h2 := addIngressRule_snd s call.peer call.conn call.descr
      rw [hstep'] at h2
      exact h2
    subst hres
    rw [runCalls_cons_ok s call rest s1 hstep]
    rw [ih s1 fun c hcm => hI c (List.mem_cons_of_mem _ hcm)]
    have h2 := addIngressRule_fst_directEgressRules s call.peer call.conn call.descr
    rw [hstep'] at h2
    exact h2

theorem runCalls_deny_after_egress (calls : List Call) : ∀ s : SecurityGroupState,
    s.allowAllOutbound = false →
    (runCalls s calls).2 = CallResult.ok →
    (∀ call ∈ calls, notSentinelCall call = true) →
    s.directEgressRules = [MATCH_NO_TRAFFIC] →
    (∃ call ∈ calls, call.isIngress = false) →
    ∀ r ∈ (runCalls s calls).1.directEgressRules,
      egressRulesEqual r MATCH_NO_TRAFFIC = false := by
  induction calls with
  | nil =>
    intro s _ _ _ _ hex
    rcases hex with ⟨c, hcm, _⟩
    exact absurd hcm (List.not_mem_nil c)
  | cons call rest ih =>
    intro s hA hok hns hP hex
    rcases hstep : step s call with ⟨s1, res⟩
    have hA1 : s1.allowAllOutbound = false := by
      have hfl := step_fst_allowAllOutbound s call
      rw [hstep] at hfl
      simpa [hA] using hfl
    cases res with
    | error e =>
      rw [runCalls_cons_error s call rest s1 e hstep] at hok
      exact absurd hok (by simp)
    | ok =>
      rw [runCalls_cons_ok s call rest s1 hstep] at hok ⊢
      cases hc : call.isIngress with
      | false =>
        have hstep' : addEgressRule s call.peer call.conn call.descr = (s1, CallResult.ok) := by
          rw [← hstep]; simp [step, hc]
        have h1 : ∀ r ∈ s1.directEgressRules, egressRulesEqual r MATCH_NO_TRAFFIC = false := by
          have happ := addEgress_sentinelFree s call.peer call.conn call.descr hA
            (by
              rw [hP]
              intro r hr
              simp [removeFirstEgressEqual, egressRulesEqual_refl] at hr)
            (fun hp hcc => notSentinelCall_elim call (hns call (List.mem_cons_self call rest)) hc hp hcc)
          rw [hstep'] at happ
          exact happ
        exact runCalls_sentinelFree rest s1 hA1 hok
          (fun c hcm => hns c (List.mem_cons_of_mem _ hcm)) h1
      | true =>
        have hstep' : addIngressRule s call.peer call.conn call.descr = (s1, CallResult.ok) := by
          rw [← hstep]; simp [step, hc]
        have hP1 : s1.directEgressRules = [MATCH_NO_TRAFFIC] := by
          have h2 := addIngressRule_fst_directEgressRules s call.peer call.conn call.descr
          rw [hstep'] at h2
          exact h2.trans hP
        have hex1 : ∃ c ∈ rest, c.isIngress = false := by
          rcases hex with ⟨c, hcm, hce⟩
          rcases List.mem_cons.mp hcm with rfl | hm
          · rw [hc] at hce
            exact absurd hce (by simp)
          · exact ⟨c, hm, hce⟩
        exact ih s1 hA1 hok (fun c hcm => hns c (List.mem_cons_of_mem _ hcm)) hP1 hex1

/-- C5 counterexample: on a deny-by-default group, after a first real
egress rule is added, a later successful call that adds a rule
structurally identical to the sentinel makes `MATCH_NO_TRAFFIC` a member
of the egress list again, refuting "the sentinel ... is never present
again in any later reachable state". -/
theorem sentinel_readd_counterexample :
    (runCalls (mkSecurityGroup false)
        [⟨false, cidrPeer "10.0.0.0/8", tcp80, none⟩,
          ⟨false, cidrPeer "255.255.255.255/32", bogusIcmpRange, some "Disallow all traffic"⟩]).2
        = CallResult.ok ∧
      MATCH_NO_TRAFFIC ∈
        (runCalls (mkSecurityGroup false)
          [⟨false, cidrPeer "10.0.0.0/8", tcp80, none⟩,
            ⟨false, cidrPeer "255.255.255.255/32", bogusIcmpRange, some "Disallow all traffic"⟩]).1.directEgressRules := by
  decide

/-- C5 amended: over call sequences that all succeed and never submit an
egress candidate structurally equal (ignoring description) to the
sentinel: in allow-all mode the egress list is always exactly
`[ALLOW_ALL_RULE]`; in deny mode it is exactly `[MATCH_NO_TRAFFIC]` while
no egress call has been made, and from the first egress call on, no entry
equal (ignoring description) to `MATCH_NO_TRAFFIC` is ever present
again. -/
theorem egress_sentinel_invariant (b : Bool) (calls : List Call)
    (hok : (runCalls (mkSecurityGroup b) calls).2 = CallResult.ok)
    (hns : ∀ call ∈ calls, notSentinelCall call = true) :
    (b = true → (runCalls (mkSecurityGroup b) calls).1.directEgressRules = [ALLOW_ALL_RULE]) ∧
      (b = false →
        ((∀ call ∈ calls, call.isIngress = true) →
            (runCalls (mkSecurityGroup b) calls).1.directEgressRules = [MATCH_NO_TRAFFIC]) ∧
          ((∃ call ∈ calls, call.isIngress = false) →
            ∀ r ∈ (runCalls (mkSecurityGroup b) calls).1.directEgressRules,
              egressRulesEqual r MATCH_NO_TRAFFIC = false)) := by
  constructor
  · intro hb
    subst hb
    rw [runCalls_allowAll_directEgressRules calls (mkSecurityGroup true) rfl]
    rfl
  · intro hb
    subst hb
    constructor
    · intro hI
      rw [runCalls_ingressOnly_directEgressRules calls (mkSecurityGroup false) hI]
      rfl
    · intro hex
      exact runCalls_deny_after_egress calls (mkSecurityGroup false) rfl hok hns rfl hex

/-- C5 witness: the amended invariant evaluated on a deny-by-default group
with a single concrete egress call. -/
theorem egress_sentinel_invariant_witness :
    (false = true →
        (runCalls (mkSecurityGroup false)
          [⟨false, cidrPeer "10.0.0.0/8", tcp80, none⟩]).1.directEgressRules = [ALLOW_ALL_RULE]) ∧
      (false = false →
        ((∀ call ∈ [(⟨false, cidrPeer "10.0.0.0/8", tcp80, none⟩ : Call)], call.isIngress = true) →
            (runCalls (mkSecurityGroup false)
              [⟨false, cidrPeer "10.0.0.0/8", tcp80, none⟩]).1.directEgressRules = [MATCH_NO_TRAFFIC]) ∧
          ((∃ call ∈ [(⟨false, cidrPeer "10.0.0.0/8", tcp80, none⟩ : Call)], call.isIngress = false) →
            ∀ r ∈ (runCalls (mkSecurityGroup false)
                [⟨false, cidrPeer "10.0.0.0/8", tcp80, none⟩]).1.directEgressRules,
              egressRulesEqual r MATCH_NO_TRAFFIC = false)) :=
  egress_sentinel_invariant false [⟨false, cidrPeer "10.0.0.0/8", tcp80, none⟩]
    (by decide) (by decide)

/-! ### At least one egress entry: inline list or standalone resource -/

/-- Whether some standalone child is an egress rule resource. -/
def hasEgressChild (s : SecurityGroupState) : Bool :=
  s.children.any fun ch => ch.rule.isEgress

/-- Every child is an egress resource with an id starting `to ...`, or an
ingress resource with an id starting `from ...` (the two fallback paths
produce exactly these shapes). -/
def childKindsOk (s : SecurityGroupState) : Prop :=
  ∀ ch ∈ s.children,
    (ch.rule.isEgress = true ∧ ch.id.data.head? = some 't') ∨
      (ch.rule.isEgress = false ∧ ch.id.data.head? = some 'f')

theorem head_from_id (x y : String) :
    (replaceFirst ("from " ++ x ++ ":" ++ y) '/' '_').data.head? = some 'f' := by
  obtain ⟨lx⟩ := x
  obtain ⟨ly⟩ := y
  rfl

theorem head_to_id (x y : String) :
    (replaceFirst ("to " ++ x ++ ":" ++ y) '/' '_').data.head? = some 't' := by
  obtain ⟨lx⟩ := x
  obtain ⟨ly⟩ := y
  rfl

theorem hasChild_exists (s : SecurityGroupState) (id : String) (h : hasChild s id = true) :
    ∃ ch ∈ s.children, ch.id = id := by
  simp only [hasChild, List.any_eq_true] at h
  rcases h with ⟨ch, hm, he⟩
  exact ⟨ch, hm, by simpa using he⟩

theorem addDirectIngressRule_children (s : SecurityGroupState) (rule : IngressRule) :
    (addDirectIngressRule s rule).children = s.children := by
  simp only [addDirectIngressRule]
  split <;> rfl

theorem addDirectEgressRule_children (s : SecurityGroupState) (rule : EgressRule) :
    (addDirectEgressRule s rule).children = s.children := by
  simp only [addDirectEgressRule]
  split <;> rfl

theorem childKindsOk_eq_children (s s' : SecurityGroupState) (h : s'.children = s.children)
    (hK : childKindsOk s) : childKindsOk s' := by
  intro ch hch
  exact hK ch (h ▸ hch)

theorem hasEgressChild_eq_children (s s' : SecurityGroupState) (h : s'.children = s.children) :
    hasEgressChild s' = hasEgressChild s := by
  simp [hasEgressChild, h]

theorem childKindsOk_baseAddIngressRule (s : SecurityGroupState) (p : Peer) (c : PortRange)
    (d : Option String) (hK : childKindsOk s) : childKindsOk (baseAddIngressRule s p c d) := by
  simp only [baseAddIngressRule]
  split
  · exact hK
  · intro ch hch
    rcases List.mem_append.mp hch with hl | hr
    · exact hK ch hl
    · have hche : ch = ⟨replaceFirst ("from " ++ p.uniqueId ++ ":" ++ c.toStr) '/' '_',
          ChildRule.ingress (buildIngressRule p c
            ((d.getD ("from " ++ p.uniqueId ++ ":" ++ c.toStr))))⟩ := by
        simpa using hr
      right
      rw [hche]
      exact ⟨rfl, head_from_id p.uniqueId c.toStr⟩

theorem childKindsOk_baseAddEgressRule (s : SecurityGroupState) (p : Peer) (c : PortRange)
    (d : Option String) (hK : childKindsOk s) : childKindsOk (baseAddEgressRule s p c d) := by
  simp only [baseAddEgressRule]
  split
  · exact hK
  · intro ch hch
    rcases List.mem_append.mp hch with hl | hr
    · exact hK ch hl
    · have hche : ch = ⟨replaceFirst ("to " ++ p.uniqueId ++ ":" ++ c.toStr) '/' '_',
          ChildRule.egress (buildEgressRule p c
            ((d.getD ("to " ++ p.uniqueId ++ ":" ++ c.toStr))))⟩ := by
        simpa using hr
      left
      rw [hche]
      exact ⟨rfl, head_to_id p.uniqueId c.toStr⟩

theorem childKindsOk_addIngressRule (s : SecurityGroupState) (p : Peer) (c : PortRange)
    (d : Option String) (hK : childKindsOk s) : childKindsOk (addIngressRule s p c d).1 := by
  simp only [addIngressRule]
  split
  · exact childKindsOk_baseAddIngressRule s p c d hK
  · exact childKindsOk_eq_children s _ (addDirectIngressRule_children s _) hK

theorem childKindsOk_addEgressRule (s : SecurityGroupState) (p : Peer) (c : PortRange)
    (d : Option String) (hK : childKindsOk s) : childKindsOk (addEgressRule s p c d).1 := by
  simp only [addEgressRule]
  split
  · exact hK
  · split
    · exact childKindsOk_baseAddEgressRule _ p c d
        (childKindsOk_eq_children s _ (removeNoTrafficRule_children s) hK)
    · split
      · exact childKindsOk_eq_children s _ (removeNoTrafficRule_children s) hK
      · exact childKindsOk_eq_children s _
          ((addDirectEgressRule_children _ _).trans (removeNoTrafficRule_children s)) hK

theorem addIngressRule_preserves_entry (s : SecurityGroupState) (p : Peer) (c : PortRange)
    (d : Option String)
    (hJ : s.directEgressRules ≠ [] ∨ hasEgressChild s = true) :
    (addIngressRule s p c d).1.directEgressRules ≠ [] ∨
      hasEgressChild (addIngressRule s p c d).1 = true := by
  rcases hJ with h | h
  · left
    rw [addIngressRule_fst_directEgressRules]
    exact h
  · right
    simp only [addIngressRule]
    split
    · simp only [baseAddIngressRule]
      split
      · exact h
      · simp only [hasEgressChild, List.any_eq_true] at h ⊢
        rcases h with ⟨ch, hm, he⟩
        exact ⟨ch, List.mem_append.mpr (Or.inl hm), he⟩
    · rw [hasEgressChild_eq_children _ _ (addDirectIngressRule_children s _)]
      exact h

theorem addEgressRule_preserves_entry (s : SecurityGroupState) (p : Peer) (c : PortRange)
    (d : Option String)
    (hok : (addEgressRule s p c d).2 = CallResult.ok)
    (hK : childKindsOk s)
    (hJ : s.directEgressRules ≠ [] ∨ hasEgressChild s = true) :
    (addEgressRule s p c d).1.directEgressRules ≠ [] ∨
      hasEgressChild (addEgressRule s p c d).1 = true := by
  by_cases hA : s.allowAllOutbound = true
  · rw [addEgressRule_allowAll s p c d hA]
    exact hJ
  · have hA' : s.allowAllOutbound = false := Bool.eq_false_iff.mpr hA
    by_cases hpc : (!p.canInlineRule || !c.canInlineRule) = true
    · right
      have hstate : (addEgressRule s p c d).1 = baseAddEgressRule (removeNoTrafficRule s) p c d := by
        simp [addEgressRule, hA', hpc]
      rw [hstate]
      simp only [baseAddEgressRule]
      split
      · rename_i hdup
        rcases hasChild_exists _ _ hdup with ⟨ch, hm, hid⟩
        have hm' : ch ∈ s.children := by
          rw [← removeNoTrafficRule_children s]
          exact hm
        rcases hK ch hm' with ⟨he, _⟩ | ⟨_, hf⟩
        · simp only [hasEgressChild, List.any_eq_true]
          exact ⟨ch, hm, by simp [he]⟩
        · exfalso
          rw [hid, head_to_id] at hf
          exact absurd hf (by decide)
      · simp [hasEgressChild, List.any_append, ChildRule.isEgress]
    · left
      have hpc' : (!p.canInlineRule || !c.canInlineRule) = false := Bool.eq_false_iff.mpr hpc
      by_cases hall : isAllTrafficRule
          (buildEgressRule p c (d.getD ("from " ++ p.uniqueId ++ ":" ++ c.toStr))) = true
      · exfalso
        revert hok
        simp [addEgressRule, hA', hpc', hall]
      · have hall' : isAllTrafficRule
            (buildEgressRule p c (d.getD ("from " ++ p.uniqueId ++ ":" ++ c.toStr))) = false :=
          Bool.eq_false_iff.mpr hall
        have hstate : (addEgressRule s p c d).1
            = addDirectEgressRule (removeNoTrafficRule s)
                (buildEgressRule p c (d.getD ("from " ++ p.uniqueId ++ ":" ++ c.toStr))) := by
          simp [addEgressRule, hA', hpc', hall']
        rw [hstate]
        simp only [addDirectEgressRule]
        split
        · rename_i hhas
          simp only [SecurityGroupState.hasEgressRule, List.any_eq_true] at hhas
          rcases hhas with ⟨r, hr, _⟩
          intro h0
          rw [h0] at hr
          exact (List.not_mem_nil r) hr
        · simp

theorem step_preserves_entry (s : SecurityGroupState) (call : Call)
    (hok : (step s call).2 = CallResult.ok)
    (hK : childKindsOk s)
    (hJ : s.directEgressRules ≠ [] ∨ hasEgressChild s = true) :
    childKindsOk (step s call).1 ∧
      ((step s call).1.directEgressRules ≠ [] ∨ hasEgressChild (step s call).1 = true) := by
  cases hc : call.isIngress with
  | false =>
    have hs : step s call = addEgressRule s call.peer call.conn call.descr := by
      simp [step, hc]
    rw [hs] at hok ⊢
    exact ⟨childKindsOk_addEgressRule s _ _ _ hK,
      addEgressRule_preserves_entry s _ _ _ hok hK hJ⟩
  | true =>
    have hs : step s call = addIngressRule s call.peer call.conn call.descr := by
      simp [step, hc]
    rw [hs]
    exact ⟨childKindsOk_addIngressRule s _ _ _ hK,
      addIngressRule_preserves_entry s _ _ _ hJ⟩

theorem runCalls_preserves_entry (calls : List Call) : ∀ s : SecurityGroupState,
    (runCalls s calls).2 = CallResult.ok →
    childKindsOk s →
    (s.directEgressRules ≠ [] ∨ hasEgressChild s = true) →
    (runCalls s calls).1.directEgressRules ≠ [] ∨
      hasEgressChild (runCalls s calls).1 = true := by
  induction calls with
  | nil => intro s _ _ hJ; exact hJ
  | cons call rest ih =>
    intro s hok hK hJ
    rcases hstep : step s call with ⟨s1, res⟩
    cases res with
    | error e =>
      rw [runCalls_cons_error s call rest s1 e hstep] at hok
      exact absurd hok (by simp)
    | ok =>
      rw [runCalls_cons_ok s call rest s1 hstep] at hok ⊢
      have hstep2 : (step s call).2 = CallResult.ok := by rw [hstep]
      have hpres := step_preserves_entry s call hstep2 hK hJ
      rw [hstep] at hpres
      exact ih s1 hok hpres.1 hpres.2

/-- C6 counterexample: a deny-by-default group with a single inline
all-traffic egress call (which throws) ends with an empty inline egress
list and no standalone children at all: the emitted egress rule list is
empty, refuting the claimed non-emptiness over call sequences "including
calls that raise". -/
theorem egress_list_empty_counterexample :
    (runCalls (mkSecurityGroup false)
        [⟨false, cidrPeer "0.0.0.0/0", allTrafficRange, none⟩]).1.directEgressRules = [] ∧
      (runCalls (mkSecurityGroup false)
        [⟨false, cidrPeer "0.0.0.0/0", allTrafficRange, none⟩]).1.children = [] ∧
      (runCalls (mkSecurityGroup false)
        [⟨false, cidrPeer "0.0.0.0/0", allTrafficRange, none⟩]).2
        = CallResult.error allTrafficErrorMsg := by
  decide

/-- C6 amended: in every state reached by a call sequence in which no call
throws, the group has at least one egress entry: the inline egress list is
non-empty, or a standalone egress rule resource exists among the
children. -/
theorem egress_entry_exists (b : Bool) (calls : List Call)
    (hok : (runCalls (mkSecurityGroup b) calls).2 = CallResult.ok) :
    (runCalls (mkSecurityGroup b) calls).1.directEgressRules ≠ [] ∨
      hasEgressChild (runCalls (mkSecurityGroup b) calls).1 = true := by
  have hch : (mkSecurityGroup b).children = [] := by cases b <;> rfl
  have hK : childKindsOk (mkSecurityGroup b) := by
    intro ch hchm
    rw [hch] at hchm
    exact absurd hchm (List.not_mem_nil ch)
  have hJ0 : (mkSecurityGroup b).directEgressRules ≠ [] ∨
      hasEgressChild (mkSecurityGroup b) = true := by
    left
    cases b <;> simp [mkSecurityGroup, addDefaultEgressRule]
  exact runCalls_preserves_entry calls (mkSecurityGroup b) hok hK hJ0

/-- C6 witness: the amended statement evaluated on a deny-by-default group
with one successful non-inlinable egress call (the case in which the
inline list does become empty but a standalone egress resource exists). -/
theorem egress_entry_exists_witness :
    (runCalls (mkSecurityGroup false)
        [⟨false, sgPeer "sg-1", tcp80, none⟩]).1.directEgressRules ≠ [] ∨
      hasEgressChild (runCalls (mkSecurityGroup false)
        [⟨false, sgPeer "sg-1", tcp80, none⟩]).1 = true :=
  egress_entry_exists false [⟨false, sgPeer "sg-1", tcp80, none⟩] (by decide)
